import Mathlib

/-!
Shallow embedding of the go-tftp repository's packet codec
(`tftp/operations.go`) and server dispatch loop (`tftp/server.go`).

Bytes are modelled as `Nat` (wire bytes are always produced `< 256`);
Go byte slices and strings are `List Nat`; Go's `map[string]string` is an
insertion-ordered association list where inserting an existing key
replaces its value; fallible Go functions return `Except String`.

Two behaviours of Go's `encoding/binary` package are embedded as they
actually execute, because the repository relies on them:

* `binary.Write(w, order, v)` where `v` has Go type `int` (the untyped
  constants `OpRRQ`, `OpAck`, `OpErr` from `server.go` default to `int`)
  returns the error `binary.Write: invalid type int` without writing.

* `binary.Read(r, order, p)` where `p` is a pointer to an empty
  interface (`var opcode any` in `Data.UnmarshalBinary`) returns the
  error `binary.Read: invalid type *interface \x7b\x7d` without reading.
-/

namespace GoTftp

/-- `DatagramSize` from `server.go`: maximum supported datagram size. -/
def DatagramSize : Nat := 516

/-- `BlockSize` from `server.go`: `DatagramSize - 4`. -/
def BlockSize : Nat := DatagramSize - 4

/-- Opcode constants from `server.go` (`OpRRQ = iota + 1`, ...). -/
def OpRRQ : Nat := 1

def OpWRQ : Nat := 2

def OpData : Nat := 3

def OpAck : Nat := 4

def OpErr : Nat := 5

/-- Go `map[string]string` (the `Option` type of `operations.go`),
modelled as an insertion-ordered association list. -/
abbrev GoOptionMap := List (List Nat × List Nat)

/-- Go map assignment `m[k] = v`: replace the value of an existing key,
otherwise append the new binding. -/
def goMapInsert (m : GoOptionMap) (k v : List Nat) : GoOptionMap :=
  if m.any (fun kv => kv.1 = k) then
    m.map (fun kv => if kv.1 = k then (k, v) else kv)
  else m ++ [(k, v)]

/-- `bytes.Split(p, []byte\x7b0\x7d)`: split a byte slice on each `0x00`
byte; `n` zero bytes yield `n + 1` tokens. -/
def splitOnZero : List Nat → List (List Nat)
  | [] => [[]]
  | b :: rest =>
    if b = 0 then [] :: splitOnZero rest
    else
      match splitOnZero rest with
      | t :: ts => (b :: t) :: ts
      | [] => [[b]]

/-- `binary.Write` of a value whose Go type is the platform-sized `int`:
`encoding/binary` rejects it with an error and writes nothing. -/
def binaryWriteInt (_v : Nat) : Except String (List Nat) :=
  .error "binary.Write: invalid type int"

/-- `binary.Write` of a `uint16` in big-endian order: two bytes,
high byte first. -/
def binaryWriteUint16 (v : Nat) : List Nat :=
  [v / 256 % 256, v % 256]

/-- `binary.Read` of a big-endian `uint16` from a byte buffer: `EOF` on
an empty buffer, `unexpected EOF` on a one-byte buffer. -/
def binaryReadUint16 : List Nat → Except String Nat
  | [] => .error "EOF"
  | [_] => .error "unexpected EOF"
  | b0 :: b1 :: _ => .ok (b0 * 256 + b1)

/-- `binary.Read` into `var opcode any` (a pointer to an empty
interface, from `Data.UnmarshalBinary`): always an error. -/
def binaryReadAny (_p : List Nat) : Except String Nat :=
  .error "binary.Read: invalid type *interface \x7b\x7d"

/-- `ReadReq` from `operations.go`: `Filename`, `Mode`, `Options`
(`Options` is `nil` until the decoder allocates it). -/
structure ReadReq where
  filename : List Nat
  mode : List Nat
  options : Option GoOptionMap
deriving DecidableEq

/-- The bytes of the string literal `"octet"`, the default mode used by
`ReadReq.MarshalBinary` when `q.Mode` is empty. -/
def octetBytes : List Nat := [111, 99, 116, 101, 116]

/-- `ReadReq.MarshalBinary`: opcode, filename, `0x00`, mode, `0x00`.
The first `binary.Write` receives the untyped constant `OpRRQ` as a Go
`int`, so it errors and the function returns that error. -/
def ReadReq.marshalBinary (q : ReadReq) : Except String (List Nat) := do
  let mode := if q.mode = [] then octetBytes else q.mode
  let op ← binaryWriteInt OpRRQ
  .ok (op ++ q.filename ++ [0] ++ mode ++ [0])

/-- The option-collecting loop of `ReadReq.UnmarshalBinary`:
`for i := 2; i+1 < len(s); i += 2 \x7b q.Options[string(s[i])] = string(s[i+1]) \x7d`.
The loop walks the index pairs `(i, i+1)` of `s` from `i = 2` while
`i+1 < len(s)`; it is embedded as structural recursion over the suffix
`s.drop 2` (the guard `i+1 < len(s)` is exactly "the suffix from `i`
has at least two elements", `s[i]`/`s[i+1]` are its first two elements,
and `i += 2` drops them). -/
def optLoop : List (List Nat) → GoOptionMap → GoOptionMap
  | a :: b :: rest, m => optLoop rest (goMapInsert m a b)
  | _, m => m

/-- `ReadReq.UnmarshalBinary`: split the bytes after the opcode on
`0x00` (`s := bytes.Split(p[2:], ...)` in the source, inlined here);
fewer than two tokens is the error `missing filename or mode`; token 0
is Filename, token 1 is Mode; with fewer than four tokens the function
returns before allocating Options; otherwise the loop collects pairs
`(s[i], s[i+1])` for `i = 2, 4, ...` while `i+1 < len(s)`. -/
def ReadReq.unmarshalBinary (p : List Nat) : Except String ReadReq :=
  if (splitOnZero (p.drop 2)).length < 2 then .error "missing filename or mode"
  else if (splitOnZero (p.drop 2)).length < 4 then
    .ok { filename := (splitOnZero (p.drop 2)).getD 0 [],
          mode := (splitOnZero (p.drop 2)).getD 1 [], options := none }
  else
    .ok { filename := (splitOnZero (p.drop 2)).getD 0 [],
          mode := (splitOnZero (p.drop 2)).getD 1 [],
          options := some (optLoop ((splitOnZero (p.drop 2)).drop 2) []) }

/-- `Data` from `operations.go`. The `Payload` field is an `io.Reader`
in the source; here it is embedded as the list of bytes the reader has
left to deliver, so `io.CopyN(b, d.Payload, BlockSize)` takes up to
`BlockSize` bytes and leaves the rest for the next call. -/
structure Data where
  block : Nat
  payload : List Nat
deriving DecidableEq

/-- `Data.MarshalBinary`: increments `d.Block` (uint16, wrapping mod
65536) before writing, then writes `uint16(OpData)` big-endian, the new
block number big-endian, and up to `BlockSize` payload bytes. For a
list-backed payload `io.CopyN` can only stop at `io.EOF`, which the
source tolerates, so the embedding returns the updated receiver and the
produced bytes with no error case. -/
def Data.marshalBinary (d : Data) : Data × List Nat :=
  let blk := (d.block + 1) % 65536
  ({ block := blk, payload := d.payload.drop BlockSize },
   binaryWriteUint16 OpData ++ binaryWriteUint16 blk ++ d.payload.take BlockSize)

/-- `Data.UnmarshalBinary`: rejects lengths outside `4..DatagramSize`,
then reads the opcode into `var opcode any`, which `binary.Read` always
rejects, so the comparison and the block/payload reads that follow are
dead code and every input yields the error `invalid DATA`. -/
def Data.unmarshalBinary (p : List Nat) : Except String Data :=
  if p.length < 4 ∨ DatagramSize < p.length then .error "invalid DATA"
  else
    match binaryReadAny (p.take 2) with
    | .error _ => .error "invalid DATA"
    | .ok opcode =>
      if opcode ≠ OpData then .error "invalid DATA"
      else .ok { block := p.getD 2 0 * 256 + p.getD 3 0, payload := p.drop 4 }

/-- The second `binary.Write` of `Ack.MarshalBinary` receives `&a`
where `a` is already the `*Ack` receiver, i.e. a `**Ack`, which
`encoding/binary` rejects. -/
def binaryWritePtrPtrAck : Except String (List Nat) :=
  .error "binary.Write: invalid type **tftp.Ack"

/-- `Ack.MarshalBinary` (`Ack` is `uint16`): the first `binary.Write`
receives the untyped constant `OpAck` as a Go `int` and errors, so the
function returns that error for every block number; the `&a` write
after it is dead code. -/
def Ack.marshalBinary (_a : Nat) : Except String (List Nat) := do
  let op ← binaryWriteInt OpAck
  let blk ← binaryWritePtrPtrAck
  .ok (op ++ blk)

/-- `Err` from `operations.go`: `Error` is an `ErrCode` (uint16),
`Message` a string. -/
structure Err where
  error : Nat
  message : List Nat
deriving DecidableEq

/-- `Err.MarshalBinary`: the first `binary.Write` receives the untyped
constant `OpErr` as a Go `int` and errors, so the function returns that
error for every packet; the code/message writes after it are dead. -/
def Err.marshalBinary (e : Err) : Except String (List Nat) := do
  let op ← binaryWriteInt OpErr
  .ok (op ++ binaryWriteUint16 e.error ++ e.message ++ [0])

/-- `bytes.Buffer.ReadString(0)`: the bytes up to and including the
first `0x00`, paired with `true` when the delimiter was found; when it
is absent the whole remainder is returned with `false` (`io.EOF`). -/
def readStringZero : List Nat → List Nat × Bool
  | [] => ([], false)
  | b :: rest =>
    if b = 0 then ([0], true)
    else
      let (t, f) := readStringZero rest
      (b :: t, f)

/-- `strings.TrimRight(s, "\x00")`: remove every trailing zero byte. -/
def trimRightZero (l : List Nat) : List Nat :=
  (l.reverse.dropWhile (fun b => b = 0)).reverse

/-- The body of `Err.UnmarshalBinary`, acting on the receiver copy `e`:
read the opcode (2 bytes BE), reject non-`OpErr`, read the error code
into `e.Error`, then `ReadString(0)` and `TrimRight` into `e.Message`,
returning `ReadString`'s error (`EOF` when no terminator exists). -/
def Err.unmarshalBinaryBody (e : Err) (p : List Nat) : Err × Except String Unit :=
  match binaryReadUint16 p with
  | .error msg => (e, .error msg)
  | .ok code =>
    if code ≠ OpErr then (e, .error "invalid ERROR")
    else
      match binaryReadUint16 (p.drop 2) with
      | .error msg => (e, .error msg)
      | .ok c =>
        let (raw, found) := readStringZero (p.drop 4)
        ({ error := c, message := trimRightZero raw },
         if found then .ok () else .error "EOF")

/-- Go method call on a value receiver: the body runs on a copy of the
receiver, so the caller's variable keeps its prior value and only the
returned result is observed. `Err.UnmarshalBinary` is declared with the
value receiver `(e Err)`. -/
def goCallValueReceiver {α β γ : Type} (body : α → β → α × γ)
    (recv : α) (arg : β) : α × γ :=
  (recv, (body recv arg).2)

/-- Observable actions of `Server.handlePacket` (`server.go`). -/
inductive Event where
  | logRequest (addr : String) (filename : List Nat)
  | dialUDP (addr : String)
  | readHandlerCall (filename : List Nat)
deriving DecidableEq

/-- `Server.handlePacket`: read the opcode from the buffer; on `OpRRQ`
decode the request (returning its error on failure), log it, dial back
to the client, and spawn the read handler on the filename; any other
opcode falls through the `switch` and is dropped with no error.
`net.Dial` is embedded as succeeding, recorded as an event. -/
def handlePacket (clientAddr : String) (buf : List Nat) :
    Except String (List Event) :=
  match binaryReadUint16 buf with
  | .error msg => .error msg
  | .ok code =>
    if code = OpRRQ then
      match ReadReq.unmarshalBinary buf with
      | .error msg => .error msg
      | .ok rrq =>
        .ok [.logRequest clientAddr rrq.filename, .dialUDP clientAddr,
             .readHandlerCall rrq.filename]
    else .ok []

/-- `Server.process` allocates `buf := make([]byte, DatagramSize)` and
passes the whole buffer to `handlePacket` regardless of the number of
bytes received, so a datagram is right-padded with zero bytes to
`DatagramSize` (and truncated beyond it). -/
def padDatagram (d : List Nat) : List Nat :=
  d.take DatagramSize ++ List.replicate (DatagramSize - d.length) 0

/-- `Server.Serve`'s receive loop over a queue of incoming datagrams:
each is processed by `handlePacket`; the first error is returned by
`process` and propagated by `Serve`, ending the loop with the remaining
datagrams unprocessed. The result is the events of the processed
datagrams and the terminating error, if any. -/
def serveList (clientAddr : String) : List (List Nat) → List Event × Option String
  | [] => ([], none)
  | d :: rest =>
    match handlePacket clientAddr (padDatagram d) with
    | .error msg => ([], some msg)
    | .ok es =>
      let (es2, r) := serveList clientAddr rest
      (es ++ es2, r)

/-- Number of read-handler invocations among a list of events. -/
def readHandlerCalls (es : List Event) : Nat :=
  (es.filter (fun e =>
    match e with
    | .readHandlerCall _ => true
    | _ => false)).length

/-- A well-formed RRQ datagram: opcode 1, filename `a.txt`, `0x00`,
mode `octet`, `0x00`. -/
def rrqDatagram : List Nat :=
  [0, 1, 97, 46, 116, 120, 116, 0, 111, 99, 116, 101, 116, 0]

/-- A malformed datagram filling the whole receive buffer: opcode 1
(RRQ) followed by 514 bytes `0xFF`, so the bytes after the opcode
contain no `0x00` and split into a single token. -/
def badDatagram : List Nat := 0 :: 1 :: List.replicate 514 255

/-- Specification-level description of the option tokens: the
successive pairs of a token list in order, with an unpaired trailing
element ignored. Used to compare `optLoop` against the spec's
"remaining tokens are option name/value pairs in order". -/
def pairChunks : List (List Nat) → List (List Nat × List Nat)
  | a :: b :: rest => (a, b) :: pairChunks rest
  | _ => []

/-- Insert a list of key/value pairs into a Go map in order. -/
def goMapInsertPairs (m : GoOptionMap) (ps : List (List Nat × List Nat)) :
    GoOptionMap :=
  ps.foldl (fun acc kv => goMapInsert acc kv.1 kv.2) m

/-- The block number carried on the wire by an encoded Data packet:
bytes 2 and 3, big-endian. -/
def wireBlock (bs : List Nat) : Nat := bs.getD 2 0 * 256 + bs.getD 3 0

/-- The wire block numbers emitted by `n` successive calls of
`Data.MarshalBinary` on the same packet value, which the source mutates
through its pointer receiver. -/
def emittedBlocks : Nat → Data → List Nat
  | 0, _ => []
  | n + 1, d =>
    wireBlock (Data.marshalBinary d).2 :: emittedBlocks n (Data.marshalBinary d).1

/-! Helper lemmas shared by the claim theorems. -/

/-- Splitting a zero-free token followed by a `0x00` peels off exactly
that token. -/
theorem splitOnZero_append (F rest : List Nat) (hF : 0 ∉ F) :
    splitOnZero (F ++ 0 :: rest) = F :: splitOnZero rest := by
  induction F with
  | nil => simp [splitOnZero]
  | cons b F ih =>
    have hb : ¬ b = 0 := fun h => hF (by simp [h])
    have hF' : 0 ∉ F := fun h => hF (List.mem_cons_of_mem _ h)
    simp [splitOnZero, hb, ih hF']

/-- The indexed option loop computes the ordered insertion of the
successive token pairs, ignoring an unpaired trailing token. -/
theorem optLoop_eq_pairChunks :
    ∀ (l : List (List Nat)) (m : GoOptionMap),
      optLoop l m = goMapInsertPairs m (pairChunks l)
  | [], _ => rfl
  | [_], _ => rfl
  | _ :: _ :: rest, m => optLoop_eq_pairChunks rest (goMapInsert m _ _)

/-- The block number on the wire equals the incremented (mod 65536)
counter of the mutated receiver. -/
theorem data_marshal_wireBlock (d : Data) :
    wireBlock (Data.marshalBinary d).2 = (d.block + 1) % 65536 := by
  show (d.block + 1) % 65536 / 256 % 256 * 256 + (d.block + 1) % 65536 % 256 =
    (d.block + 1) % 65536
  omega

/-- Wire block numbers across successive encode calls, from any
in-range starting counter. -/
theorem emittedBlocks_formula (n : Nat) :
    ∀ d : Data, emittedBlocks n d =
      (List.range n).map (fun i => (d.block + i + 1) % 65536) := by
  induction n with
  | zero => intro d; rfl
  | succ n ih =>
    intro d
    rw [emittedBlocks, data_marshal_wireBlock, ih, List.range_succ_eq_map]
    simp only [List.map_cons, List.map_map]
    refine congrArg₂ _ (by omega) ?_
    refine List.map_congr_left fun i _ => ?_
    show ((d.block + 1) % 65536 + i + 1) % 65536 = (d.block + (i + 1) + 1) % 65536
    omega

/-! Claim theorems. -/

set_option maxRecDepth 8000

/-- Claim C1: `decode(encode(p)) = p` was claimed for every packet kind
and valid field values. The code fails it for every kind: the Ack, Err
and ReadReq encoders error on their first `binary.Write` (the untyped
opcode constants have Go type `int`), and the Data decoder rejects
every byte string (it reads the opcode into a `*interface` value, which
`binary.Read` rejects), so no packet kind round-trips. This theorem
evaluates the code at concrete valid packets. -/
theorem c1_roundtrip_fails_for_every_kind :
    Ack.marshalBinary 0 = .error "binary.Write: invalid type int" ∧
    Err.marshalBinary ⟨1, [120]⟩ = .error "binary.Write: invalid type int" ∧
    ReadReq.marshalBinary ⟨[97], octetBytes, none⟩ =
      .error "binary.Write: invalid type int" ∧
    Data.unmarshalBinary [0, 3, 0, 97] = .error "invalid DATA" :=
  ⟨rfl, rfl, rfl, rfl⟩

/-- Claim C2: encoding an Ack with block `b` was claimed to produce
`[0x00, 0x04, hi b, lo b]`. The code instead returns the error of the
first `binary.Write`, which receives the untyped constant `OpAck` as a
Go `int`, for every block number; the write of `&a` (a `**Ack`, itself
invalid for `binary.Write`) is never reached. -/
theorem c2_ack_marshal_always_errors (b : Nat) :
    Ack.marshalBinary b = .error "binary.Write: invalid type int" := rfl

/-- Claim C3: Data decode was claimed to succeed exactly on byte
strings of length 4..516 starting with big-endian opcode 3. The code
rejects every byte string with `invalid DATA`, because the opcode is
read into `var opcode any` and `binary.Read` rejects a pointer to an
empty interface. -/
theorem c3_data_unmarshal_always_errors (p : List Nat) :
    Data.unmarshalBinary p = .error "invalid DATA" := by
  unfold Data.unmarshalBinary
  split
  · rfl
  · rfl

/-- Claim C4 (counterexample): a full-size RRQ datagram whose bytes
after the opcode contain no `0x00` fails request decoding, and the
serve loop terminates with that error before processing the following
well-formed RRQ datagram — the malformed datagram is fatal, not
dropped. -/
theorem c4_counterexample :
    serveList "client" [badDatagram, rrqDatagram] =
      ([], some "missing filename or mode") := rfl

/-- Claim C4 (amended): a datagram on which `handlePacket` fails is
fatal to the Dispatcher: `process` returns the error and `Serve`
propagates it, terminating the loop at once with no events and with all
subsequent datagrams unprocessed. -/
theorem c4_amended_decode_error_is_fatal (addr : String) (d : List Nat)
    (msg : String) (rest : List (List Nat))
    (h : handlePacket addr (padDatagram d) = .error msg) :
    serveList addr (d :: rest) = ([], some msg) := by
  simp [serveList, h]

/-- Claim C4 (witness): the amended theorem at the malformed datagram,
with one further datagram pending. -/
theorem c4_amended_decode_error_is_fatal_witness :
    serveList "client" [badDatagram] = ([], some "missing filename or mode") :=
  c4_amended_decode_error_is_fatal "client" badDatagram
    "missing filename or mode" [] rfl

/-- Claim C5 (counterexample): two identical well-formed RRQ datagrams
processed by the serve loop invoke the read handler twice, not once —
there is no duplicate-request suppression in `handlePacket`. -/
theorem c5_counterexample :
    readHandlerCalls (serveList "client" [rrqDatagram, rrqDatagram]).1 = 2 ∧
    readHandlerCalls (serveList "client" [rrqDatagram, rrqDatagram]).1 ≠ 1 := by
  have h : readHandlerCalls (serveList "client" [rrqDatagram, rrqDatagram]).1 = 2 :=
    rfl
  exact ⟨h, by rw [h]; omega⟩

/-- Claim C5 (amended): every datagram that decodes as an RRQ starts a
fresh transfer attempt — `handlePacket` logs, dials back and invokes
the read handler once per datagram, so two identical RRQ datagrams from
the same address invoke the read capability exactly twice and the loop
continues without error. -/
theorem c5_amended_each_rrq_spawns (addr : String) (d : List Nat) (rrq : ReadReq)
    (h1 : binaryReadUint16 (padDatagram d) = .ok OpRRQ)
    (h2 : ReadReq.unmarshalBinary (padDatagram d) = .ok rrq) :
    readHandlerCalls (serveList addr [d, d]).1 = 2 ∧
    (serveList addr [d, d]).2 = none := by
  have hh : handlePacket addr (padDatagram d) =
      .ok [.logRequest addr rrq.filename, .dialUDP addr,
           .readHandlerCall rrq.filename] := by
    unfold handlePacket
    rw [h1, h2]
    simp
  have hs : serveList addr [d, d] =
      ([Event.logRequest addr rrq.filename, Event.dialUDP addr,
        Event.readHandlerCall rrq.filename, Event.logRequest addr rrq.filename,
        Event.dialUDP addr, Event.readHandlerCall rrq.filename], none) := by
    simp [serveList, hh]
  rw [hs]
  exact ⟨rfl, rfl⟩

/-- Claim C5 (witness): the amended theorem at the concrete RRQ
datagram for `a.txt` in `octet` mode (zero-padded to the receive buffer
size, which makes the decoder collect the empty option pair). -/
theorem c5_amended_each_rrq_spawns_witness :
    readHandlerCalls (serveList "client" [rrqDatagram, rrqDatagram]).1 = 2 ∧
    (serveList "client" [rrqDatagram, rrqDatagram]).2 = none :=
  c5_amended_each_rrq_spawns "client" rrqDatagram
    ⟨[97, 46, 116, 120, 116], octetBytes, some [([], [])]⟩ rfl rfl

/-- Claim C6: for a request formed as opcode bytes, filename `F`,
`0x00`, mode `M`, `0x00` with `F` and `M` free of NUL bytes, decoding
succeeds and extracts exactly `F` and `M` (and allocates no options,
the three tokens being `F`, `M` and the empty trailer); and whenever
the bytes after the opcode split on NUL into fewer than two tokens,
decoding fails with the malformed-packet error
`missing filename or mode`. -/
theorem c6_rrq_decode_extracts_filename_mode :
    (∀ (b0 b1 : Nat) (F M : List Nat), 0 ∉ F → 0 ∉ M →
      ReadReq.unmarshalBinary (b0 :: b1 :: (F ++ 0 :: (M ++ [0]))) =
        .ok { filename := F, mode := M, options := none }) ∧
    (∀ p : List Nat, 2 ≤ p.length → (splitOnZero (p.drop 2)).length < 2 →
      ReadReq.unmarshalBinary p = .error "missing filename or mode") := by
  constructor
  · intro b0 b1 F M hF hM
    have hs : splitOnZero ((b0 :: b1 :: (F ++ 0 :: (M ++ [0]))).drop 2) =
        [F, M, []] := by
      show splitOnZero (F ++ 0 :: (M ++ [0])) = [F, M, []]
      rw [splitOnZero_append F _ hF,
        show M ++ [0] = M ++ 0 :: [] from rfl,
        splitOnZero_append M [] hM]
      rfl
    unfold ReadReq.unmarshalBinary
    rw [hs]
    simp
  · intro p _ h2
    unfold ReadReq.unmarshalBinary
    rw [if_pos h2]

/-- Claim C6 (witness): the confirmed theorem at filename `a`, mode
`m`, and at the tokenless request `[0, 1, 7]`. -/
theorem c6_rrq_decode_extracts_filename_mode_witness :
    ReadReq.unmarshalBinary [0, 1, 97, 0, 109, 0] =
      .ok { filename := [97], mode := [109], options := none } ∧
    ReadReq.unmarshalBinary [0, 1, 7] = .error "missing filename or mode" :=
  ⟨c6_rrq_decode_extracts_filename_mode.1 0 1 [97] [109]
      (by decide) (by decide),
    c6_rrq_decode_extracts_filename_mode.2 [0, 1, 7] (by decide) (by decide)⟩

/-- Claim C7: each `Data.MarshalBinary` call advances the block counter
by one (mod 65536) before writing it, so the wire block field of the
output is the incremented counter, and successive calls starting from a
zero-initialised packet emit the block numbers `1, 2, 3, ...` mod 65536
(in particular 65535 wraps to 0 on the 65536th call). -/
theorem c7_block_counter_sequence :
    (∀ d : Data, wireBlock (Data.marshalBinary d).2 = (d.block + 1) % 65536) ∧
    (∀ (n : Nat) (p : List Nat),
      emittedBlocks n { block := 0, payload := p } =
        (List.range n).map (fun i => (i + 1) % 65536)) := by
  refine ⟨data_marshal_wireBlock, fun n p => ?_⟩
  rw [emittedBlocks_formula]
  exact List.map_congr_left fun i _ => by norm_num

/-- Claim C8: a Data encode produces exactly
`4 + min (payload length) BlockSize` bytes, hence never more than
`DatagramSize = 516`. -/
theorem c8_data_marshal_length (d : Data) :
    ((Data.marshalBinary d).2).length = 4 + min d.payload.length BlockSize ∧
    ((Data.marshalBinary d).2).length ≤ DatagramSize := by
  have h : ((Data.marshalBinary d).2).length = 4 + min 512 d.payload.length := by
    simp [Data.marshalBinary, binaryWriteUint16, BlockSize, DatagramSize]
    omega
  have hb : BlockSize = 512 := rfl
  have hd : DatagramSize = 516 := rfl
  constructor
  · rw [h, hb]
    omega
  · rw [h, hd]
    omega

/-- Claim C9 (counterexample): a request whose tokens after Filename
and Mode number an odd count (here one token, `[120]`) does not fail
with a malformed-options error — the decoder returns success with no
options allocated. -/
theorem c9_counterexample :
    ReadReq.unmarshalBinary [0, 1, 102, 0, 109, 0, 120] =
      .ok { filename := [102], mode := [109], options := none } := rfl

/-- Claim C9 (amended): an odd trailing token count never causes an
error. Whenever at least two tokens follow the opcode the decode
succeeds; with fewer than four tokens no options map is allocated, and
otherwise the tokens after Filename and Mode are parsed pairwise in
order (with an unpaired trailing token silently ignored, and a repeated
option name overwriting its earlier value). -/
theorem c9_options_parsed_pairwise (p : List Nat)
    (h : 2 ≤ (splitOnZero (p.drop 2)).length) :
    ReadReq.unmarshalBinary p =
      .ok { filename := (splitOnZero (p.drop 2)).getD 0 [],
            mode := (splitOnZero (p.drop 2)).getD 1 [],
            options := if (splitOnZero (p.drop 2)).length < 4 then none
                       else some (goMapInsertPairs []
                         (pairChunks ((splitOnZero (p.drop 2)).drop 2))) } := by
  unfold ReadReq.unmarshalBinary
  rw [if_neg (by omega)]
  by_cases h4 : (splitOnZero (p.drop 2)).length < 4
  · rw [if_pos h4, if_pos h4]
  · rw [if_neg h4, if_neg h4, optLoop_eq_pairChunks]

/-- Claim C9 (witness): the amended theorem at a request with tokens
`f`, `m`, `k`, `v`, `x` — three trailing tokens, an odd count — which
succeeds with the single option pair `(k, v)` and `x` ignored. -/
theorem c9_options_parsed_pairwise_witness :
    ReadReq.unmarshalBinary [0, 1, 102, 0, 109, 0, 107, 0, 118, 0, 120] =
      .ok { filename := [102], mode := [109],
            options := some [([107], [118])] } :=
  c9_options_parsed_pairwise [0, 1, 102, 0, 109, 0, 107, 0, 118, 0, 120]
    (by decide)

/-- Claim C10: `Err.UnmarshalBinary` has a value receiver, so the Go
call runs the body on a copy and the caller's packet value is unchanged
whether the call succeeds or fails; the final conjunct shows the frame
condition is not vacuous — on a valid ERROR packet the body really does
write different field values into the (discarded) copy. -/
theorem c10_err_unmarshal_caller_unchanged (e : Err) (p : List Nat) :
    (goCallValueReceiver Err.unmarshalBinaryBody e p).1.error = e.error ∧
    (goCallValueReceiver Err.unmarshalBinaryBody e p).1.message = e.message ∧
    (Err.unmarshalBinaryBody ⟨0, []⟩ [0, 5, 0, 1, 104, 0]).1 ≠ ⟨0, []⟩ :=
  ⟨rfl, rfl, by decide⟩

end GoTftp
